import Mathlib

/-
Verification of the polling-and-deduplication core of the
linear-gnome-notifications GNOME Shell extension.

The development is a shallow embedding of the canonical (richer) JavaScript
implementation, src/polling-service.js and src/linear-client.js:

* a JavaScript Set of record identifiers is modelled as a duplicate-free
  insertion-ordered list (Set.add appends only when absent and preserves the
  original position on re-insertion; Array.from enumerates in insertion order);
* the asynchronous poll cycle is modelled by explicit state passing: the fetch
  result of linearClient.getUpdates is a parameter of type
  Except String (List Update) (ok carries the fetched page, error the message
  of the rejected promise);
* GLib timer handles are modelled as Option Nat in the state, and arming a
  timer is reported as the Option Int delay that timeout_add_seconds received;
* machine integers (millisecond timestamps, interval seconds) are modelled as
  Int, which is faithful because none of the embedded arithmetic overflows.
-/

namespace LinearPoll

/-- A raw notification record as delivered by the remote API
(the shape consumed by getUpdates in src/linear-client.js).
Optional provider fields are Option-valued; a present-but-empty string is
modelled as some of the empty string, matching JavaScript falsiness checks. -/
structure RawNotification where
  id : String
  type : String
  title : Option String
  subtitle : Option String
  url : String
  createdAt : Int
  issueIdentifier : Option String
  actor : Option String
  issueStatusType : Option String
deriving DecidableEq

/-- The opaque data payload attached to each update by getUpdates. -/
structure UpdateData where
  notificationId : String
  notificationType : String
  actor : Option String
  issueStatusType : Option String
deriving DecidableEq

/-- The normalized update produced by getUpdates in src/linear-client.js. -/
structure Update where
  id : String
  type : String
  title : String
  body : String
  url : String
  updatedAt : Int
  data : UpdateData
deriving DecidableEq

/-- The canonical notification handed to the sink
(convertUpdateToNotification in src/polling-service.js). -/
structure Notification where
  id : String
  title : String
  body : String
  url : String
  type : String
  timestamp : Int
  data : UpdateData
deriving DecidableEq

/-- mapNotificationType (src/linear-client.js lines 444-456): fixed lookup
table from provider type tags to canonical types, falling back to
the string notification. -/
def mapNotificationType (linearType : String) : String :=
  if linearType = "issueCreated" then "new_issue"
  else if linearType = "issueAssigned" then "issue_assigned"
  else if linearType = "issueStatusChanged" then "status_change"
  else if linearType = "issueCommentCreated" then "new_comment"
  else if linearType = "issueMentioned" then "mentioned"
  else if linearType = "issueUnassigned" then "issue_unassigned"
  else "notification"

/-- getNotificationTypeIcon (src/linear-client.js lines 425-439): icon prefix
per provider type, empty string when unknown. -/
def getNotificationTypeIcon (notificationType : String) : String :=
  if notificationType = "issueNewComment" then "💬"
  else if notificationType = "issueCommentMention" then "@"
  else if notificationType = "issueAssigned" then "👤"
  else if notificationType = "issueUnassigned" then "👤"
  else if notificationType = "issueStatusChanged" then "📋"
  else if notificationType = "issueCreated" then "➕"
  else if notificationType = "issueAddedToView" then "📁"
  else if notificationType = "triageResponsibilityIssueAddedToTriage" then "🔍"
  else ""

/-- formatNotificationTitle (src/linear-client.js lines 395-406):
title falls back to a fixed string when absent or empty (JavaScript
logical-or on a falsy value), and a nonempty issue identifier is prepended. -/
def formatNotificationTitle (n : RawNotification) : String :=
  let title :=
    match n.title with
    | some t => if t = "" then "Linear Notification" else t
    | none => "Linear Notification"
  match n.issueIdentifier with
  | some i => if i = "" then title else i ++ " " ++ title
  | none => title

/-- formatNotificationBody (src/linear-client.js lines 408-421):
subtitle with an optional icon prefix, falling back to a fixed string
when the result would be empty. -/
def formatNotificationBody (n : RawNotification) : String :=
  let body :=
    match n.subtitle with
    | some s => s
    | none => ""
  let typeIcon := getNotificationTypeIcon n.type
  let body2 := if typeIcon ≠ "" ∧ body ≠ "" then typeIcon ++ " " ++ body else body
  if body2 ≠ "" then body2 else "New activity in Linear"

/-- One record of the update list built by getUpdates
(src/linear-client.js lines 362-380). -/
def toUpdate (n : RawNotification) : Update :=
  { id := "notification-" ++ n.id
    type := mapNotificationType n.type
    title := formatNotificationTitle n
    body := formatNotificationBody n
    url := n.url
    updatedAt := n.createdAt
    data :=
      { notificationId := n.id
        notificationType := n.type
        actor := n.actor
        issueStatusType := n.issueStatusType } }

/-- getUpdates (src/linear-client.js lines 345-384): keep the raw records
created strictly after the watermark, normalize each, and sort the page most
recent first (the comparator b.updatedAt - a.updatedAt orders descending;
JavaScript sort and mergeSort are both stable). -/
def getUpdates (lastUpdateTime : Int) (raws : List RawNotification) : List Update :=
  let newNotifications := raws.filter (fun n => decide (lastUpdateTime < n.createdAt))
  let updates := newNotifications.map toUpdate
  updates.mergeSort (fun a b => decide (b.updatedAt ≤ a.updatedAt))

/-- JavaScript Set.prototype.add on the insertion-ordered-list model:
append only when absent; re-adding keeps the original position. -/
def SeenSet.add {α : Type} [DecidableEq α] (s : List α) (x : α) : List α :=
  if x ∈ s then s else s ++ [x]

/-- JavaScript Set.prototype.has. -/
def SeenSet.has {α : Type} [DecidableEq α] (s : List α) (x : α) : Bool :=
  decide (x ∈ s)

/-- cleanupOldUpdateIds (src/polling-service.js lines 154-164): when the seen
set holds more than 1000 ids, enumerate it in insertion order, slice(-500)
keeps the last 500, then clear and re-add them in order. -/
def cleanupOldUpdateIds {α : Type} [DecidableEq α] (s : List α) : List α :=
  if s.length > 1000 then
    let updateIds := s
    let keepIds := updateIds.drop (updateIds.length - 500)
    List.foldl SeenSet.add [] keepIds
  else s

/-- The mutable state of LinearPollingService: isPolling, the armed GLib
timer handle, and the seen set lastKnownUpdates. -/
structure PollState where
  isPolling : Bool
  timeoutId : Option Nat
  lastKnownUpdates : List String
deriving DecidableEq

/-- stop (src/polling-service.js lines 54-62): clear isPolling and cancel the
armed timer handle if any (afterwards the handle is null in either case). -/
def stop (s : PollState) : PollState :=
  { s with isPolling := false, timeoutId := none }

/-- Character-wise lowering, the effect of String.prototype.toLowerCase on
the messages the classifier inspects. -/
def lowerMessage (s : String) : String :=
  String.mk (s.toList.map Char.toLower)

/-- String.prototype.includes: substring containment. -/
def includesSub (hay pat : String) : Bool :=
  decide (pat.toList <:+: hay.toList)

/-- isAuthenticationError (src/polling-service.js lines 166-171): lowercase
the message of the error (empty when absent) and test it for three
substrings. -/
def isAuthenticationError (errMessage : Option String) : Bool :=
  let errorMessage :=
    match errMessage with
    | some m => lowerMessage m
    | none => ""
  includesSub errorMessage "unauthorized" ||
  includesSub errorMessage "invalid token" ||
  includesSub errorMessage "authentication"

/-- convertUpdateToNotification (src/polling-service.js lines 138-148). -/
def convertUpdateToNotification (update : Update) : Notification :=
  { id := update.id
    title := update.title
    body := update.body
    url := update.url
    type := update.type
    timestamp := update.updatedAt
    data := update.data }

/-- The body of the try block of poll after the fetch resolved
(src/polling-service.js lines 106-126): filter out already-seen ids, then for
each remaining update dispatch its notification to the sink and add its id to
the seen set, and finally prune the seen set (pruning and adding happen only
when at least one new update arrived). Returns the new state and the
notifications dispatched, in dispatch order. -/
def pollSuccess (updates : List Update) (s : PollState) :
    PollState × List Notification :=
  let newUpdates := updates.filter (fun u => !(SeenSet.has s.lastKnownUpdates u.id))
  if newUpdates.length > 0 then
    let dispatched := newUpdates.map convertUpdateToNotification
    let seen := List.foldl SeenSet.add s.lastKnownUpdates (newUpdates.map Update.id)
    ({ s with lastKnownUpdates := cleanupOldUpdateIds seen }, dispatched)
  else
    (s, [])

/-- The catch block of poll (src/polling-service.js lines 128-135): a fetch
failure stops the service only when classified as an authentication error. -/
def pollFailure (msg : String) (s : PollState) : PollState :=
  if isAuthenticationError (some msg) then stop s else s

/-- poll (src/polling-service.js lines 88-136): return unchanged when not
polling or not authenticated, otherwise consume the fetch outcome. The fetch
outcome r stands for the settled promise of linearClient.getUpdates. -/
def poll (auth : Bool) (r : Except String (List Update)) (s : PollState) :
    PollState × List Notification :=
  if !s.isPolling then (s, [])
  else if !auth then (s, [])
  else
    match r with
    | Except.ok updates => pollSuccess updates s
    | Except.error msg => (pollFailure msg s, [])

/-- scheduleNextPoll (src/polling-service.js lines 69-86): when polling, arm
one timer for max 30 (configured interval) seconds and store its handle.
Returns the new state and the armed delay, none when nothing was armed. -/
def scheduleNextPoll (interval : Int) (nextId : Nat) (s : PollState) :
    PollState × Option Int :=
  if !s.isPolling then (s, none)
  else
    let intervalSeconds := max 30 interval
    ({ s with timeoutId := some nextId }, some intervalSeconds)

/-- One firing of the armed timer (the callback at src/polling-service.js
lines 80-84): it runs poll() and then scheduleNextPoll(). poll is async and
suspends at the getUpdates await before touching any state, so
scheduleNextPoll observes the pre-fetch state and arms first; the rest of the
poll body then runs against the armed state (and stop(), if the cycle ends in
an authentication error, cancels exactly the handle just armed). -/
def timerFire (auth : Bool) (interval : Int) (nextId : Nat)
    (r : Except String (List Update)) (s : PollState) :
    PollState × List Notification × Option Int :=
  let armed := scheduleNextPoll interval nextId s
  let done := poll auth r armed.1
  (done.1, done.2, armed.2)

/-- start (src/polling-service.js lines 29-52): no-op when already polling;
otherwise check authentication and return without arming when it fails; else
set isPolling, do one immediate poll and schedule the next (same
poll-then-schedule interleaving as a timer firing). -/
def start (auth : Bool) (interval : Int) (nextId : Nat)
    (r : Except String (List Update)) (s : PollState) :
    PollState × List Notification × Option Int :=
  if s.isPolling then (s, [], none)
  else if !auth then (s, [], none)
  else
    timerFire auth interval nextId r { s with isPolling := true }

/-- setPollingInterval (src/polling-service.js lines 191-197): reject values
outside 30..300 with an error before writing the setting. -/
def setPollingInterval (seconds : Int) : Except String Int :=
  if seconds < 30 ∨ seconds > 300 then
    Except.error "Polling interval must be between 30 and 300 seconds"
  else
    Except.ok seconds

/-- The stored polling-interval setting after a call of setPollingInterval:
unchanged when the call threw, the new value when it succeeded. -/
def applySetPollingInterval (seconds stored : Int) : Int :=
  match setPollingInterval seconds with
  | Except.ok v => v
  | Except.error _ => stored

/-- One execution of poll in which stop() runs while the fetch is awaiting
its response: the guards at the top of poll saw the pre-stop state, stop()
then flipped isPolling and cancelled the timer at the await point, and the
rest of the poll body (src/polling-service.js lines 106-126, which contains
no second isPolling check) resumes against the post-stop state. -/
def pollWithStopDuringFetch (auth : Bool) (updates : List Update) (s : PollState) :
    PollState × List Notification :=
  if !s.isPolling then (s, [])
  else if !auth then (s, [])
  else
    pollSuccess updates (stop s)

/-! ### Helper lemmas about the seen set -/

/-- Folding SeenSet.add over ids that are fresh for the accumulator and
mutually distinct appends them in order. -/
theorem foldl_add_of_fresh {α : Type} [DecidableEq α] (l : List α) (acc : List α)
    (hd : ∀ x ∈ l, x ∉ acc) (hl : l.Nodup) :
    List.foldl SeenSet.add acc l = acc ++ l := by
  induction l generalizing acc with
  | nil => simp
  | cons x xs ih =>
    have hx : x ∉ acc := hd x (List.mem_cons_self x xs)
    have hxs : xs.Nodup := (List.nodup_cons.mp hl).2
    have hxx : x ∉ xs := (List.nodup_cons.mp hl).1
    simp only [List.foldl_cons, SeenSet.add, if_neg hx]
    rw [ih (acc ++ [x]) ?fresh hxs]
    · simp
    · intro y hy hmem
      rcases List.mem_append.mp hmem with h1 | h2
      · exact hd y (List.mem_cons_of_mem x hy) h1
      · rw [List.mem_singleton] at h2
        subst h2
        exact hxx hy
/-- Folding SeenSet.add preserves freedom from duplicates. -/
theorem nodup_foldl_add {α : Type} [DecidableEq α] (l : List α) (acc : List α)
    (h : acc.Nodup) : (List.foldl SeenSet.add acc l).Nodup := by
  induction l generalizing acc with
  | nil => simpa
  | cons x xs ih =>
    simp only [List.foldl_cons]
    apply ih
    unfold SeenSet.add
    split
    · exact h
    · next hx =>
      rw [List.nodup_append]
      refine ⟨h, List.nodup_singleton x, ?_⟩
      intro a ha hax
      rw [List.mem_singleton] at hax
      subst hax
      exact hx ha

/-- Membership is preserved by folding SeenSet.add. -/
theorem mem_foldl_add {α : Type} [DecidableEq α] (l acc : List α) (x : α)
    (h : x ∈ acc ∨ x ∈ l) : x ∈ List.foldl SeenSet.add acc l := by
  induction l generalizing acc with
  | nil => simpa using h
  | cons y ys ih =>
    simp only [List.foldl_cons]
    apply ih
    rcases h with ha | hl
    · left
      unfold SeenSet.add
      split
      · exact ha
      · exact List.mem_append.mpr (Or.inl ha)
    · rcases List.mem_cons.mp hl with rfl | hys
      · left
        unfold SeenSet.add
        split
        · next hin => exact hin
        · simp
      · right
        exact hys

/-- When the seen set is duplicate-free and over the ceiling, the prune
retains exactly the suffix of 500 most recently inserted ids. -/
theorem cleanup_eq_drop {α : Type} [DecidableEq α] (s : List α)
    (h : s.Nodup) (hlen : s.length > 1000) :
    cleanupOldUpdateIds s = s.drop (s.length - 500) := by
  unfold cleanupOldUpdateIds
  rw [if_pos hlen]
  have hnd : (s.drop (s.length - 500)).Nodup := (List.drop_sublist _ _).nodup h
  have := foldl_add_of_fresh (s.drop (s.length - 500)) [] (by simp) hnd
  simpa using this

/-- An id just appended to the seen set survives the prune. -/
theorem mem_cleanup_append {α : Type} [DecidableEq α] (l : List α) (x : α) :
    x ∈ cleanupOldUpdateIds (l ++ [x]) := by
  unfold cleanupOldUpdateIds
  split
  · next hgt =>
    apply mem_foldl_add
    right
    rw [List.drop_append_of_le_length ?hle]
    · simp
    · simp only [List.length_append, List.length_singleton] at hgt ⊢
      omega
  · simp

/-! ### C2: the seen-set ceiling invariant -/

/-- C2: for every sequence of add() calls on a fresh seen set, the size right
after the prune check never exceeds 1000; and whenever the prune fires
(the size having exceeded 1000) the result has exactly 500 members, namely
the 500 most recently added ids in insertion order (the length-500 suffix of
the insertion order). -/
theorem seenSet_ceiling_invariant {α : Type} [DecidableEq α] (ids : List α) :
    (cleanupOldUpdateIds (List.foldl SeenSet.add ([] : List α) ids)).length ≤ 1000
    ∧ ((List.foldl SeenSet.add ([] : List α) ids).length > 1000 →
        cleanupOldUpdateIds (List.foldl SeenSet.add ([] : List α) ids)
          = (List.foldl SeenSet.add ([] : List α) ids).drop
              ((List.foldl SeenSet.add ([] : List α) ids).length - 500)
        ∧ (cleanupOldUpdateIds (List.foldl SeenSet.add ([] : List α) ids)).length
            = 500) := by
  have hnd : (List.foldl SeenSet.add ([] : List α) ids).Nodup :=
    nodup_foldl_add ids [] List.nodup_nil
  set seen := List.foldl SeenSet.add ([] : List α) ids with hseen
  constructor
  · by_cases hgt : seen.length > 1000
    · rw [cleanup_eq_drop seen hnd hgt]
      rw [List.length_drop]
      omega
    · unfold cleanupOldUpdateIds
      rw [if_neg hgt]
      omega
  · intro hgt
    refine ⟨cleanup_eq_drop seen hnd hgt, ?_⟩
    rw [cleanup_eq_drop seen hnd hgt, List.length_drop]
    omega

/-- Witness for C2 at a concrete sequence of 1001 distinct adds. -/
theorem seenSet_ceiling_invariant_witness :
    (List.foldl SeenSet.add ([] : List Nat) (List.range 1001)).length > 1000
    ∧ (cleanupOldUpdateIds (List.foldl SeenSet.add ([] : List Nat)
        (List.range 1001))).length = 500 := by
  have hfold : List.foldl SeenSet.add ([] : List Nat) (List.range 1001)
      = List.range 1001 := by
    have := foldl_add_of_fresh (List.range 1001) [] (by simp) (List.nodup_range 1001)
    simpa using this
  have hlen : (List.foldl SeenSet.add ([] : List Nat) (List.range 1001)).length > 1000 := by
    rw [hfold, List.length_range]
    omega
  exact ⟨hlen, ((seenSet_ceiling_invariant (List.range 1001)).2 hlen).2⟩

/-! ### C1: deduplication makes a repeat poll silent -/

/-- A poll whose fetched page contains only already-seen ids dispatches
nothing and leaves the whole state unchanged. -/
theorem poll_no_new (s : PollState) (updates : List Update)
    (h : ∀ u ∈ updates, u.id ∈ s.lastKnownUpdates) :
    poll true (Except.ok updates) s = (s, []) := by
  have hfilt : updates.filter (fun u => !(SeenSet.has s.lastKnownUpdates u.id)) = [] := by
    rw [List.filter_eq_nil_iff]
    intro u hu
    simp [SeenSet.has, h u hu]
  unfold poll pollSuccess
  cases hp : s.isPolling <;> simp [hp, hfilt]

/-- Example data used by the concrete witnesses below. -/
def dataOf (rawId rawType : String) : UpdateData :=
  { notificationId := rawId
    notificationType := rawType
    actor := none
    issueStatusType := none }

/-- A concrete update with id notification-a. -/
def updateA : Update :=
  { id := "notification-a"
    type := "notification"
    title := "LIN-1 Title a"
    body := "New activity in Linear"
    url := "https://linear.app/a"
    updatedAt := 1
    data := dataOf "a" "issueSubscribed" }

/-- A concrete update with id notification-b. -/
def updateB : Update :=
  { id := "notification-b"
    type := "new_comment"
    title := "LIN-2 Title b"
    body := "a comment"
    url := "https://linear.app/b"
    updatedAt := 2
    data := dataOf "b" "issueCommentCreated" }

/-- A concrete fresh polling state. -/
def freshState : PollState :=
  { isPolling := true, timeoutId := none, lastKnownUpdates := [] }

/-- C1: when a poll cycle completes and the next fetch returns only records
whose ids are all already in the seen set, the second poll dispatches zero
notifications to the sink and leaves the seen set, and indeed the whole
state, unchanged. -/
theorem poll_dedup_second_cycle (s : PollState) (first second : List Update)
    (h : ∀ u ∈ second,
        u.id ∈ (poll true (Except.ok first) s).1.lastKnownUpdates) :
    poll true (Except.ok second) (poll true (Except.ok first) s).1
      = ((poll true (Except.ok first) s).1, []) :=
  poll_no_new (poll true (Except.ok first) s).1 second h

/-- Witness for C1: first fetch delivers a and b, second fetch re-delivers b
only; the second poll dispatches nothing and changes nothing. -/
theorem poll_dedup_second_cycle_witness :
    (∀ u ∈ ([updateB] : List Update),
        u.id ∈ (poll true (Except.ok [updateA, updateB]) freshState).1.lastKnownUpdates)
    ∧ poll true (Except.ok [updateB])
        (poll true (Except.ok [updateA, updateB]) freshState).1
      = ((poll true (Except.ok [updateA, updateB]) freshState).1, []) := by
  refine ⟨?_, poll_dedup_second_cycle freshState [updateA, updateB] [updateB] ?_⟩ <;>
    decide

/-! ### C3: dispatch order of a single poll over a freshly fetched page -/

/-- The timestamps of the notifications dispatched by a poll over a fetched
page are non-increasing: getUpdates sorts the page most recent first and the
dispatch loop preserves the page order. -/
theorem poll_dispatch_ts_antitone (auth : Bool) (t : Int)
    (raws : List RawNotification) (s : PollState) :
    List.Pairwise (fun a b : Int => b ≤ a)
      ((poll auth (Except.ok (getUpdates t raws)) s).2.map Notification.timestamp) := by
  have htrans : ∀ a b c : Update,
      decide (b.updatedAt ≤ a.updatedAt) = true →
      decide (c.updatedAt ≤ b.updatedAt) = true →
      decide (c.updatedAt ≤ a.updatedAt) = true := by
    intro a b c hab hbc
    rw [decide_eq_true_iff] at hab hbc ⊢
    exact le_trans hbc hab
  have htotal : ∀ a b : Update,
      (decide (b.updatedAt ≤ a.updatedAt) || decide (a.updatedAt ≤ b.updatedAt)) = true := by
    intro a b
    simpa using le_total b.updatedAt a.updatedAt
  have hsorted : List.Pairwise (fun a b : Update => b.updatedAt ≤ a.updatedAt)
      (getUpdates t raws) := by
    unfold getUpdates
    exact (List.sorted_mergeSort htrans htotal _).imp (fun h => of_decide_eq_true h)
  have hdispatch : ∀ us : List Update,
      List.Pairwise (fun a b : Update => b.updatedAt ≤ a.updatedAt) us →
      List.Pairwise (fun a b : Int => b ≤ a)
        ((poll auth (Except.ok us) s).2.map Notification.timestamp) := by
    intro us hus
    have hfiltered : List.Pairwise (fun a b : Update => b.updatedAt ≤ a.updatedAt)
        (us.filter (fun u => !(SeenSet.has s.lastKnownUpdates u.id))) :=
      List.Pairwise.sublist (List.filter_sublist us) hus
    unfold poll
    split
    · simp
    · split
      · simp
      · simp only [pollSuccess]
        split
        · simp only [List.map_map]
          exact List.Pairwise.map _ (fun a b h => h) hfiltered
        · simp
  exact hdispatch _ hsorted

/-- C3 amended: given raw records and no prior seen state, a single poll
dispatches notifications in non-increasing (most recent first) timestamp
order, because getUpdates sorts the page descending by its comparator. -/
theorem poll_dispatch_descending (t : Int) (raws : List RawNotification) :
    List.Pairwise (fun a b : Int => b ≤ a)
      ((poll true (Except.ok (getUpdates t raws)) freshState).2.map
        Notification.timestamp) :=
  poll_dispatch_ts_antitone true t raws freshState

/-- A concrete raw record with timestamp 1. -/
def rawA : RawNotification :=
  { id := "a", type := "issueCreated", title := some "Created a"
    subtitle := some "sub a", url := "https://linear.app/a", createdAt := 1
    issueIdentifier := some "LIN-1", actor := none, issueStatusType := none }

/-- A concrete raw record with timestamp 2. -/
def rawB : RawNotification :=
  { id := "b", type := "issueAssigned", title := some "Assigned b"
    subtitle := some "sub b", url := "https://linear.app/b", createdAt := 2
    issueIdentifier := some "LIN-2", actor := none, issueStatusType := none }

/-- A concrete raw record with timestamp 3. -/
def rawC : RawNotification :=
  { id := "c", type := "issueStatusChanged", title := some "Status c"
    subtitle := some "sub c", url := "https://linear.app/c", createdAt := 3
    issueIdentifier := some "LIN-3", actor := none, issueStatusType := none }

/-- C3 counterexample: on the fresh state, a poll over raw records with
timestamps 1 < 2 < 3 does NOT dispatch in non-decreasing timestamp order
(it dispatches 3, 2, 1: the page is sorted most recent first). -/
theorem poll_dispatch_not_ascending_cex :
    ¬ List.Pairwise (fun a b : Int => a ≤ b)
      ((poll true (Except.ok (getUpdates 0 [rawA, rawB, rawC])) freshState).2.map
        Notification.timestamp) := by
  have h : getUpdates 0 [rawA, rawB, rawC]
      = [toUpdate rawC, toUpdate rawB, toUpdate rawA] := by
    simp [getUpdates, rawA, rawB, rawC, toUpdate, List.mergeSort]
  rw [h]
  decide

/-! ### C4 and C10: the authentication-error circuit breaker -/

/-- A pattern made of characters fixed by lowering is still contained after
the message is lowered. -/
theorem includesSub_lowerMessage (msg pat : String)
    (hpat : pat.toList.map Char.toLower = pat.toList)
    (h : includesSub msg pat = true) :
    includesSub (lowerMessage msg) pat = true := by
  unfold includesSub at h ⊢
  rw [decide_eq_true_iff] at h ⊢
  have hmap := List.IsInfix.map Char.toLower h
  rw [hpat] at hmap
  simpa [lowerMessage, String.toList] using hmap

/-- Classifying the fetch error as an authentication error makes the cycle
end in the stopped state: isPolling cleared and the timer handle, armed
earlier in the same firing, cancelled. -/
theorem timerFire_authError_state (s : PollState) (interval : Int) (nextId : Nat)
    (msg : String) (hp : s.isPolling = true)
    (hc : isAuthenticationError (some msg) = true) :
    (timerFire true interval nextId (Except.error msg) s).1
      = stop { s with timeoutId := some nextId } := by
  unfold timerFire scheduleNextPoll poll pollFailure
  simp [hp, hc]

/-- A fetch error not classified as an authentication error leaves the state
as armed by the rescheduling, with isPolling still true. -/
theorem timerFire_otherError_state (s : PollState) (interval : Int) (nextId : Nat)
    (msg : String) (hp : s.isPolling = true)
    (hc : isAuthenticationError (some msg) = false) :
    (timerFire true interval nextId (Except.error msg) s).1
      = { s with timeoutId := some nextId } := by
  unfold timerFire scheduleNextPoll poll pollFailure
  simp [hp, hc]

/-- C4: a poll cycle whose fetch rejects with an error whose message contains
the substring unauthorized ends with isPolling false and no timer armed
(stop cancelled the handle the firing had armed), so polling halts until an
external start or restart; a fetch failure not classified as an
authentication error leaves isPolling true, so the next scheduled tick
retries. -/
theorem poll_auth_error_stops (s : PollState) (interval : Int) (nextId : Nat)
    (msg : String) (hp : s.isPolling = true) :
    (includesSub msg "unauthorized" = true →
      (timerFire true interval nextId (Except.error msg) s).1.isPolling = false
      ∧ (timerFire true interval nextId (Except.error msg) s).1.timeoutId = none)
    ∧ (isAuthenticationError (some msg) = false →
      (timerFire true interval nextId (Except.error msg) s).1.isPolling = true) := by
  constructor
  · intro hsub
    have hc : isAuthenticationError (some msg) = true := by
      unfold isAuthenticationError
      have := includesSub_lowerMessage msg "unauthorized" (by decide) hsub
      simp [this]
    rw [timerFire_authError_state s interval nextId msg hp hc]
    exact ⟨rfl, rfl⟩
  · intro hc
    rw [timerFire_otherError_state s interval nextId msg hp hc]
    exact hp

/-- A concrete state that is polling with a previously armed timer. -/
def pollingState : PollState :=
  { isPolling := true, timeoutId := some 7, lastKnownUpdates := ["notification-a"] }

/-- Witness for C4: a rejected fetch whose message contains unauthorized
halts the concrete polling state, and a plain network error leaves it
polling. -/
theorem poll_auth_error_stops_witness :
    ((timerFire true 60 1 (Except.error "GraphQL error: unauthorized request")
        pollingState).1.isPolling = false
      ∧ (timerFire true 60 1 (Except.error "GraphQL error: unauthorized request")
        pollingState).1.timeoutId = none)
    ∧ (timerFire true 60 1 (Except.error "connection timed out")
        pollingState).1.isPolling = true := by
  refine ⟨(poll_auth_error_stops pollingState 60 1 _ rfl).1 (by decide),
    (poll_auth_error_stops pollingState 60 1 _ rfl).2 (by decide)⟩

/-- C10: the classifier is a pure case-insensitive substring test: an error
is an authentication error exactly when its lowercased message contains one
of the substrings unauthorized, invalid token or authentication (and an
absent message is never one); consequently any error so classified, even a
transport error whose text merely mentions one of these substrings, leaves
the scheduler permanently stopped: isPolling false and no timer armed. -/
theorem isAuthenticationError_characterization (s : PollState) (interval : Int)
    (nextId : Nat) (m : String) (hp : s.isPolling = true) :
    (∀ msg : String, isAuthenticationError (some msg) = true ↔
      ("unauthorized".toList <:+: (lowerMessage msg).toList
        ∨ "invalid token".toList <:+: (lowerMessage msg).toList
        ∨ "authentication".toList <:+: (lowerMessage msg).toList))
    ∧ isAuthenticationError none = false
    ∧ (isAuthenticationError (some m) = true →
      (timerFire true interval nextId (Except.error m) s).1.isPolling = false
      ∧ (timerFire true interval nextId (Except.error m) s).1.timeoutId = none) := by
  refine ⟨?_, by decide, ?_⟩
  · intro msg
    unfold isAuthenticationError includesSub
    simp [or_assoc]
  · intro hc
    rw [timerFire_authError_state s interval nextId m hp hc]
    exact ⟨rfl, rfl⟩

/-- Witness for C10: a transport-flavoured message mentioning authentication
is classified as an authentication error and halts the concrete polling
state. -/
theorem isAuthenticationError_characterization_witness :
    isAuthenticationError (some "TLS handshake failed during authentication") = true
    ∧ (timerFire true 60 1
        (Except.error "TLS handshake failed during authentication")
        pollingState).1.isPolling = false := by
  refine ⟨by decide,
    ((isAuthenticationError_characterization pollingState 60 1 _ rfl).2.2
      (by decide)).1⟩

/-! ### C5: the guards of start -/

/-- C5: start while unauthenticated leaves isPolling false, arms no timer,
dispatches nothing and ignores any fetch outcome; and start while already
polling is a no-op that arms no additional timer and performs no additional
poll cycle, whatever the fetch outcome would have been. -/
theorem start_guards (s : PollState) (auth : Bool) (interval : Int) (nextId : Nat)
    (r : Except String (List Update)) :
    (auth = false → s.isPolling = false →
      start auth interval nextId r s = (s, [], none))
    ∧ (s.isPolling = true →
      start auth interval nextId r s = (s, [], none)) := by
  constructor
  · intro ha hp
    unfold start
    simp [ha, hp]
  · intro hp
    unfold start
    simp [hp]

/-- Witness for C5: the unauthenticated fresh state and the already-polling
state are both left untouched by start. -/
theorem start_guards_witness :
    start false 60 1 (Except.ok [updateA])
        { isPolling := false, timeoutId := none, lastKnownUpdates := [] }
      = ({ isPolling := false, timeoutId := none, lastKnownUpdates := [] }, [], none)
    ∧ start true 60 1 (Except.ok [updateA]) pollingState = (pollingState, [], none) := by
  refine ⟨(start_guards _ false 60 1 _).1 rfl rfl,
    (start_guards pollingState true 60 1 _).2 rfl⟩

/-! ### C7: each timer firing polls once and re-arms once with a floored
delay -/

/-- C7: every timer firing on a polling state performs exactly one poll (its
resulting state and dispatched notifications are those of a single poll on
the re-armed state) and re-arms exactly one new timer whose delay is
max 30 (configured interval) seconds; in particular any interval below 30 is
floored to a 30 second delay and an interval of 45 arms exactly 45. -/
theorem timerFire_reschedules (s : PollState) (auth : Bool) (interval : Int)
    (nextId : Nat) (r : Except String (List Update)) (hp : s.isPolling = true) :
    (timerFire auth interval nextId r s).2.2 = some (max 30 interval)
    ∧ (interval < 30 → (timerFire auth interval nextId r s).2.2 = some 30)
    ∧ (interval = 45 → (timerFire auth interval nextId r s).2.2 = some 45)
    ∧ (timerFire auth interval nextId r s).1
        = (poll auth r { s with timeoutId := some nextId }).1
    ∧ (timerFire auth interval nextId r s).2.1
        = (poll auth r { s with timeoutId := some nextId }).2 := by
  have harm : scheduleNextPoll interval nextId s
      = ({ s with timeoutId := some nextId }, some (max 30 interval)) := by
    unfold scheduleNextPoll
    simp [hp]
  refine ⟨?_, ?_, ?_, ?_, ?_⟩
  · simp [timerFire, harm]
  · intro hlt
    have : max (30 : Int) interval = 30 := max_eq_left (le_of_lt hlt)
    simp [timerFire, harm, this]
  · intro h45
    subst h45
    simp [timerFire, harm]
  · simp [timerFire, harm]
  · simp [timerFire, harm]

/-- Witness for C7: on the concrete polling state, a configured interval of
10 arms a 30 second timer and an interval of 45 arms a 45 second timer. -/
theorem timerFire_reschedules_witness :
    (timerFire true 10 1 (Except.ok []) pollingState).2.2 = some 30
    ∧ (timerFire true 45 1 (Except.ok []) pollingState).2.2 = some 45 := by
  refine ⟨(timerFire_reschedules pollingState true 10 1 _ rfl).2.1 (by decide),
    (timerFire_reschedules pollingState true 45 1 _ rfl).2.2.1 rfl⟩

/-! ### C8: the configuration boundary rejects out-of-range intervals -/

/-- C8: setPollingInterval rejects every argument outside 30..300 with a
validation error, leaving the stored interval unchanged, and accepts every
argument inside 30..300, storing exactly that value. -/
theorem setPollingInterval_range (seconds stored : Int) :
    ((seconds < 30 ∨ seconds > 300) →
      setPollingInterval seconds
          = Except.error "Polling interval must be between 30 and 300 seconds"
      ∧ applySetPollingInterval seconds stored = stored)
    ∧ (30 ≤ seconds → seconds ≤ 300 →
      setPollingInterval seconds = Except.ok seconds
      ∧ applySetPollingInterval seconds stored = seconds) := by
  constructor
  · intro hout
    have h1 : setPollingInterval seconds
        = Except.error "Polling interval must be between 30 and 300 seconds" := by
      unfold setPollingInterval
      rw [if_pos hout]
    exact ⟨h1, by unfold applySetPollingInterval; rw [h1]⟩
  · intro hlo hhi
    have hout : ¬(seconds < 30 ∨ seconds > 300) := by omega
    have h1 : setPollingInterval seconds = Except.ok seconds := by
      unfold setPollingInterval
      rw [if_neg hout]
    exact ⟨h1, by unfold applySetPollingInterval; rw [h1]⟩

/-- Witness for C8: setting 10 fails and keeps the stored interval 60;
setting 45 succeeds and stores 45. -/
theorem setPollingInterval_range_witness :
    (setPollingInterval 10
        = Except.error "Polling interval must be between 30 and 300 seconds"
      ∧ applySetPollingInterval 10 60 = 60)
    ∧ (setPollingInterval 45 = Except.ok 45
      ∧ applySetPollingInterval 45 60 = 45) := by
  refine ⟨(setPollingInterval_range 10 60).1 (by decide),
    (setPollingInterval_range 45 60).2 (by decide) (by decide)⟩

/-! ### C9: the normalizer is total with graceful fallbacks -/

/-- A string append whose right part is nonempty is nonempty. -/
theorem append_ne_empty_of_right (a b : String) (hb : b ≠ "") : a ++ b ≠ "" := by
  intro h
  apply hb
  apply String.ext
  have hdata := congrArg String.data h
  rw [String.data_append] at hdata
  have hb2 : b.data = [] := (List.append_eq_nil.mp hdata).2
  rw [hb2]

/-- The formatted title is never the empty string. -/
theorem formatNotificationTitle_ne_empty (n : RawNotification) :
    formatNotificationTitle n ≠ "" := by
  unfold formatNotificationTitle
  have htitle : (match n.title with
      | some t => if t = "" then "Linear Notification" else t
      | none => "Linear Notification") ≠ "" := by
    cases n.title with
    | none => decide
    | some t =>
      dsimp only
      split
      · decide
      · assumption
  cases n.issueIdentifier with
  | none => exact htitle
  | some i =>
    dsimp only
    split
    · exact htitle
    · exact append_ne_empty_of_right _ _ htitle

/-- The formatted body is never the empty string. -/
theorem formatNotificationBody_ne_empty (n : RawNotification) :
    formatNotificationBody n ≠ "" := by
  unfold formatNotificationBody
  cases n.subtitle with
  | none =>
    dsimp only
    split <;> split <;> first | assumption | decide
  | some t =>
    dsimp only
    split <;> split <;> first | assumption | decide

/-- C9: the normalizer is total with graceful fallbacks: every provider type
tag outside the six known ones maps to the fallback canonical type
notification rather than failing, and the produced title and body are never
the empty string. -/
theorem normalizer_total_fallbacks :
    (∀ t : String, t ≠ "issueCreated" → t ≠ "issueAssigned" →
      t ≠ "issueStatusChanged" → t ≠ "issueCommentCreated" →
      t ≠ "issueMentioned" → t ≠ "issueUnassigned" →
      mapNotificationType t = "notification")
    ∧ ∀ n : RawNotification,
        formatNotificationTitle n ≠ "" ∧ formatNotificationBody n ≠ "" := by
  constructor
  · intro t h1 h2 h3 h4 h5 h6
    unfold mapNotificationType
    simp [h1, h2, h3, h4, h5, h6]
  · intro n
    exact ⟨formatNotificationTitle_ne_empty n, formatNotificationBody_ne_empty n⟩

/-- A raw record with an unknown type and all optional fields absent. -/
def rawUnknown : RawNotification :=
  { id := "z", type := "projectUpdatePrompt", title := none, subtitle := none
    url := "https://linear.app/z", createdAt := 9
    issueIdentifier := none, actor := none, issueStatusType := none }

/-- Witness for C9: an unknown type tag falls back to notification, and the
record with every optional field absent still gets nonempty fallback title
and body. -/
theorem normalizer_total_fallbacks_witness :
    mapNotificationType "projectUpdatePrompt" = "notification"
    ∧ formatNotificationTitle rawUnknown ≠ ""
    ∧ formatNotificationBody rawUnknown ≠ "" := by
  refine ⟨normalizer_total_fallbacks.1 "projectUpdatePrompt" (by decide) (by decide)
      (by decide) (by decide) (by decide) (by decide),
    normalizer_total_fallbacks.2 rawUnknown⟩

/-! ### C6: stop during an in-flight fetch does not discard the result -/

/-- C6 counterexample: when stop() runs while the fetch is awaiting its
response, the fetched result is NOT discarded: on the concrete polling state,
the resumed poll body dispatches the fresh update and grows the seen set,
because poll re-checks isPolling nowhere after the await. -/
theorem stop_during_fetch_cex :
    ¬ ((pollWithStopDuringFetch true [updateB] pollingState).2 = []
      ∧ (pollWithStopDuringFetch true [updateB] pollingState).1.lastKnownUpdates
          = pollingState.lastKnownUpdates) := by
  decide

/-- Folding SeenSet.add decomposes as the accumulator followed by a tail of
first occurrences: the tail is no longer than the input and every input
element ends up in the accumulator or the tail. -/
theorem foldl_add_decompose {α : Type} [DecidableEq α] (l : List α) (acc : List α) :
    ∃ d : List α, List.foldl SeenSet.add acc l = acc ++ d
      ∧ d.length ≤ l.length
      ∧ ∀ x ∈ l, x ∈ acc ∨ x ∈ d := by
  induction l generalizing acc with
  | nil => exact ⟨[], by simp, by simp, by simp⟩
  | cons y ys ih =>
    simp only [List.foldl_cons]
    by_cases hy : y ∈ acc
    · obtain ⟨d, hd, hlen, hmem⟩ := ih acc
      refine ⟨d, ?_, ?_, ?_⟩
      · rw [SeenSet.add, if_pos hy]
        exact hd
      · simp only [List.length_cons]
        omega
      · intro x hx
        rcases List.mem_cons.mp hx with rfl | hxs
        · exact Or.inl hy
        · exact hmem x hxs
    · obtain ⟨d, hd, hlen, hmem⟩ := ih (acc ++ [y])
      refine ⟨y :: d, ?_, ?_, ?_⟩
      · rw [SeenSet.add, if_neg hy, hd]
        simp
      · simp only [List.length_cons]
        omega
      · intro x hx
        rcases List.mem_cons.mp hx with rfl | hxs
        · exact Or.inr (List.mem_cons_self _ _)
        · rcases hmem x hxs with hacc | hd2
          · rcases List.mem_append.mp hacc with h1 | h2
            · exact Or.inl h1
            · rw [List.mem_singleton] at h2
              exact Or.inr (h2 ▸ List.mem_cons_self _ _)
          · exact Or.inr (List.mem_cons_of_mem _ hd2)

/-- An element of a tail of at most 500 entries appended to the seen set
survives the prune: the prune keeps the suffix of 500 most recent entries
and the tail lies inside it. -/
theorem mem_cleanup_of_mem_short_tail {α : Type} [DecidableEq α]
    (acc d : List α) (x : α) (hx : x ∈ d) (hlen : d.length ≤ 500) :
    x ∈ cleanupOldUpdateIds (acc ++ d) := by
  unfold cleanupOldUpdateIds
  split
  · apply mem_foldl_add
    right
    rw [List.drop_append_of_le_length ?hle]
    · exact List.mem_append.mpr (Or.inr hx)
    · simp only [List.length_append]
      omega
  · exact List.mem_append.mpr (Or.inr hx)

/-- pollSuccess dispatches exactly the not-yet-seen updates of the fetched
page, in page order (also when there are none). -/
theorem pollSuccess_dispatched (updates : List Update) (s : PollState) :
    (pollSuccess updates s).2
      = (updates.filter (fun u => !(SeenSet.has s.lastKnownUpdates u.id))).map
          convertUpdateToNotification := by
  simp only [pollSuccess]
  split
  · rfl
  · next h =>
    have h0 : (updates.filter (fun u => !(SeenSet.has s.lastKnownUpdates u.id))).length
        = 0 := by omega
    rw [List.eq_nil_of_length_eq_zero h0]
    rfl

/-- pollSuccess never touches isPolling or the timer handle. -/
theorem pollSuccess_preserves_flags (updates : List Update) (s : PollState) :
    (pollSuccess updates s).1.isPolling = s.isPolling
    ∧ (pollSuccess updates s).1.timeoutId = s.timeoutId := by
  simp only [pollSuccess]
  split
  · exact ⟨rfl, rfl⟩
  · exact ⟨rfl, rfl⟩

/-- When the page brings at most 500 new updates, every one of their ids is
still in the seen set pollSuccess leaves behind, the prune notwithstanding. -/
theorem pollSuccess_mem_seen (updates : List Update) (s : PollState)
    (hlen : (updates.filter
        (fun u => !(SeenSet.has s.lastKnownUpdates u.id))).length ≤ 500) :
    ∀ u ∈ updates.filter (fun u => !(SeenSet.has s.lastKnownUpdates u.id)),
      u.id ∈ (pollSuccess updates s).1.lastKnownUpdates := by
  intro u hu
  have hpos : 0 < (updates.filter
      (fun u => !(SeenSet.has s.lastKnownUpdates u.id))).length :=
    List.length_pos_of_mem hu
  simp only [pollSuccess]
  rw [if_pos hpos]
  show u.id ∈ cleanupOldUpdateIds
      (List.foldl SeenSet.add s.lastKnownUpdates
        ((updates.filter (fun u => !(SeenSet.has s.lastKnownUpdates u.id))).map
          Update.id))
  obtain ⟨d, hd, hdlen, hdmem⟩ := foldl_add_decompose
    ((updates.filter (fun u => !(SeenSet.has s.lastKnownUpdates u.id))).map Update.id)
    s.lastKnownUpdates
  rw [hd]
  have hfresh : u.id ∉ s.lastKnownUpdates := by
    have := List.of_mem_filter hu
    simpa [SeenSet.has] using this
  have hid : u.id ∈ (updates.filter
      (fun u => !(SeenSet.has s.lastKnownUpdates u.id))).map Update.id :=
    List.mem_map_of_mem _ hu
  rcases hdmem _ hid with hacc | hdm
  · exact absurd hacc hfresh
  · refine mem_cleanup_of_mem_short_tail _ _ _ hdm ?_
    have : ((updates.filter
        (fun u => !(SeenSet.has s.lastKnownUpdates u.id))).map Update.id).length
        ≤ 500 := by
      rw [List.length_map]
      exact hlen
    omega

/-- C6 amended: when stop() runs while the fetch of a polling cycle is
awaiting its response, the fetched result is still processed rather than
discarded: isPolling is not re-checked before dispatch, so every not-yet-seen
update of the fetched page is dispatched to the sink, in page order, and its
id is added to the seen set (for any page of at most 500 new updates the id
is still present after the prune; the provider fetches pages of 50); only
isPolling stays false and the cancelled timer stays disarmed. -/
theorem stop_during_fetch_still_dispatches (s : PollState) (updates : List Update)
    (hp : s.isPolling = true) :
    (pollWithStopDuringFetch true updates s).2
        = (updates.filter (fun u => !(SeenSet.has s.lastKnownUpdates u.id))).map
            convertUpdateToNotification
    ∧ (pollWithStopDuringFetch true updates s).1.isPolling = false
    ∧ (pollWithStopDuringFetch true updates s).1.timeoutId = none
    ∧ ((updates.filter
          (fun u => !(SeenSet.has s.lastKnownUpdates u.id))).length ≤ 500 →
        ∀ u ∈ updates.filter (fun u => !(SeenSet.has s.lastKnownUpdates u.id)),
          u.id ∈ (pollWithStopDuringFetch true updates s).1.lastKnownUpdates) := by
  have hstate : pollWithStopDuringFetch true updates s = pollSuccess updates (stop s) := by
    unfold pollWithStopDuringFetch
    simp [hp]
  rw [hstate]
  refine ⟨?_, ?_, ?_, ?_⟩
  · exact pollSuccess_dispatched updates (stop s)
  · rw [(pollSuccess_preserves_flags updates (stop s)).1]
    rfl
  · rw [(pollSuccess_preserves_flags updates (stop s)).2]
    rfl
  · intro hlen u hu
    exact pollSuccess_mem_seen updates (stop s) hlen u hu

/-- Witness for C6 amended: a stopped cycle over a mixed page (one already
seen update, one fresh) still dispatches the fresh update, records its id,
and ends with isPolling false and no timer armed. -/
theorem stop_during_fetch_still_dispatches_witness :
    (pollWithStopDuringFetch true [updateA, updateB] pollingState).2
        = [convertUpdateToNotification updateB]
    ∧ (pollWithStopDuringFetch true [updateA, updateB] pollingState).1.isPolling = false
    ∧ (pollWithStopDuringFetch true [updateA, updateB] pollingState).1.timeoutId = none
    ∧ updateB.id ∈ (pollWithStopDuringFetch true [updateA, updateB]
        pollingState).1.lastKnownUpdates := by
  obtain ⟨h1, h2, h3, h4⟩ :=
    stop_during_fetch_still_dispatches pollingState [updateA, updateB] rfl
  refine ⟨?_, h2, h3, ?_⟩
  · rw [h1]
    decide
  · exact h4 (by decide) updateB (by decide)

end LinearPoll
